import Mathlib

/-!
Shallow embedding of `generate_flowchart.py` (Flowchart-Generator).

The source program is a small desktop utility: it builds a prompt from a
user-supplied description, sends it to a hosted chat-completion service,
strips markdown fence markers from the returned text, writes the result to a
transient file and invokes the external `mmdc` renderer on it.

Pure text transforms (the prompt builder and the fence-marker sanitizer on
lines 41-68 of the source) are embedded as Lean functions on `String` /
`List Char`.  The effectful orchestration (`save_and_generate_flowchart`,
`generate_flowchart`, lines 75-129) is embedded as a function from explicit
stubs for the external world (API key sources, the inference response, the
existence of the renderer binary, the subprocess result) to a terminal
outcome together with a trace of the file-system / process effects the code
performs, in order.
-/

namespace FlowchartGen

/-- The backtick character (written by code point so it never appears bare). -/
def bq : Char := '\x60'

/-- Python `str.strip()` whitespace set (the ASCII part, which is all the
source's strings can contain): space, tab, newline, carriage return,
vertical tab, form feed. -/
def pyIsSpace (c : Char) : Bool :=
  c == ' ' || c == '\t' || c == '\n' || c == '\r' || c == '\x0b' || c == '\x0c'

/-- Python `str.strip()` on a character list: drop whitespace from the front,
then from the back. -/
def stripL (s : List Char) : List Char :=
  ((s.dropWhile pyIsSpace).reverse.dropWhile pyIsSpace).reverse

/-- Python `str.replace(pat, "")` for a non-empty pattern `c0 :: p`:
a single left-to-right scan removing every non-overlapping occurrence,
resuming right after each removed occurrence (CPython semantics).
`fuel` bounds the recursion; the wrapper `removeAll` supplies `s.length`,
which always suffices because each step consumes at least one character. -/
def removeAllGo (c0 : Char) (p : List Char) : Nat → List Char → List Char
  | _, [] => []
  | 0, s => s
  | fuel+1, c :: rest =>
    if (c0 :: p).isPrefixOf (c :: rest) then removeAllGo c0 p fuel (rest.drop p.length)
    else c :: removeAllGo c0 p fuel rest

/-- Python `s.replace(c0 :: p, "")`. -/
def removeAll (c0 : Char) (p : List Char) (s : List Char) : List Char :=
  removeAllGo c0 p s.length s

/-- The plain fence marker, the three-character string of backticks. -/
def fence : List Char := [bq, bq, bq]

/-- Tail of the `mermaid`-tagged fence marker (everything after its first
character), so that the marker itself is `bq :: fenceMTail`. -/
def fenceMTail : List Char := [bq, bq] ++ "mermaid".data

/-- The `mermaid`-tagged fence marker. -/
def fenceM : List Char := bq :: fenceMTail

/-- The sanitizer of source lines 67-68 on character lists:
`content.strip().replace("«fenceM»", "").replace("«fence»", "").strip()`. -/
def sanitizeL (s : List Char) : List Char :=
  stripL (removeAll bq [bq, bq] (removeAll bq fenceMTail (stripL s)))

/-- The response sanitizer of source lines 67-68 (spec name `sanitize`). -/
def sanitize (s : String) : String := String.mk (sanitizeL s.data)

/-- Python `str.strip()` on strings. -/
def pyStrip (s : String) : String := String.mk (stripL s.data)

/-- Modelled from the spec's words, for comparison with `sanitize` only:
a sanitizer that "removes exactly the leading/trailing fence-marker pair when
present and trims surrounding whitespace, and changes nothing else" — trim,
drop one leading fence marker (tagged or plain) if present, drop one trailing
plain fence marker if present, trim again. -/
def sanitizeSpecL (s : List Char) : List Char :=
  let t := stripL s
  let t := if fenceM.isPrefixOf t then t.drop fenceM.length
           else if fence.isPrefixOf t then t.drop fence.length
           else t
  let t := if fence.reverse.isPrefixOf t.reverse then t.take (t.length - fence.length)
           else t
  stripL t

/-- String form of `sanitizeSpecL`. -/
def sanitizeSpec (s : String) : String := String.mk (sanitizeSpecL s.data)

/-- Fixed system message of the chat request (source line 61). -/
def systemMessage : String := "Generate Mermaid flowchart code using standard symbols."

/-- Opening of the f-string prompt of source lines 41-42, up to the point
where `user_requirement` is interpolated. -/
def promptHead : String :=
  "\n    Create a Mermaid flowchart following ISO 5807:1985 standards for: "

/-- Prompt text between the interpolated description and the rule section
(source lines 43-44). -/
def promptMid : String := "\n    \n    "

/-- The rule-section header together with its first rule (source lines
44-45): the rules begin with the fixed starting-token requirement. -/
def ruleBlock : String := "Rules:\n    1. Start with \x27flowchart TD\x27"

/-- Remainder of the prompt after the first rule (source lines 46-57). -/
def promptRest : String :=
  "\n    2. Use these symbols exactly:\n       - Start/End: ([Text])\n       - Process: [Text]\n       - Decision: \x7bText\x7d\n       - Input/Output: [/Text/]\n       - Subroutine: [[Text]]\n    3. Use simple arrows: -->\n    4. For labeled arrows use: -->|Label|\n    5. No special characters in the arrows\n    6. Keep labels simple and clear\n    7. Each node should have a unique single-letter ID (A, B, C, etc.)\n    "

/-- The full prompt f-string of source lines 41-57 (spec name `buildPrompt`):
a fixed text with the caller's description interpolated once.  It is a plain
function of the description, hence deterministic. -/
def buildPrompt (user_requirement : String) : String :=
  promptHead ++ user_requirement ++ (promptMid ++ (ruleBlock ++ promptRest))

/-- Result of `subprocess.run` with `capture_output=True` (the fields the
source reads: `returncode` and the diagnostic streams). -/
structure SubprocessResult where
  returncode : Int
  stdout : String
  stderr : String
deriving DecidableEq

/-- Observable side effects of one orchestration run, in program order.
`removedFile` is the effect a file-deletion call would emit; the source
contains no such call, so no run ever produces it. -/
inductive Event where
  | inferenceCall (systemMsg userMsg : String)
  | wroteFile (path content : String)
  | ranProcess (argv : List String)
  | removedFile (path : String)
deriving DecidableEq

/-- Terminal outcome of one orchestration run (spec type `RenderOutcome`
plus the short-circuit conditions of spec §7). -/
inductive RunResult where
  | credentialMissing
  | inferenceFailed
  | emptyCodeSkipped
  | toolNotInstalled
  | renderSuccess (outputPath : String)
  | renderFailed (diagnosticText : String)
deriving DecidableEq

/-- `posixpath.join` for two components, as `os.path.join` resolves on the
POSIX hosts the source targets: an absolute second component wins; otherwise
a separator is inserted unless the first component is empty or already ends
with one. -/
def path_join (a b : String) : String :=
  if ['/'].isPrefixOf b.data then b
  else if a = "" || ['/'].isSuffixOf a.data then a ++ b
  else a ++ "/" ++ b

/-- Python truthiness filter for an optional string: `None` and the empty
string are falsy. -/
def truthy (s : Option String) : Option String :=
  match s with
  | some t => if t = "" then none else some t
  | none => none

/-- Source line 117: `os.getenv("GROQ_API_KEY") or simpledialog.askstring(...)`,
followed by line 118's `if not api_key` truthiness test.  `env` is the
environment variable's value, `prompted` what the dialog returns (`none` when
cancelled).  The result is the first truthy candidate, if any. -/
def resolveApiKey (env prompted : Option String) : Option String :=
  match truthy env with
  | some k => some k
  | none => truthy prompted

/-- `generate_mermaid_code` (source lines 39-72) against a stubbed service:
`response` is the completion text the service returns, `none` when the call
raises.  The chat request itself is recorded as an `inferenceCall` event; a
successful response is sanitized (lines 67-68), a failure yields `none`
(lines 69-72). -/
def generate_mermaid_code (user_requirement : String) (response : Option String) :
    Option String × List Event :=
  (match response with
   | some content => some (sanitize content)
   | none => none,
   [Event.inferenceCall systemMessage (buildPrompt user_requirement)])

/-- `save_and_generate_flowchart` (source lines 75-112) against a stubbed
world.  `mmdc_path` is what `find_mmdc_path()` resolved, `mmdc_exists` what
`os.path.exists` reports for it (the `check_mmdc_installed` test of lines
28-36 and 77-79), `temp_dir` is `tempfile.gettempdir()`, and `renderer` the
`subprocess.run` result.  Returns the terminal outcome and the effect trace:
on the happy path the transient-file write (lines 82-88) followed by the
renderer invocation (lines 95-100); nothing at all when the tool is missing
(lines 77-79 return before the `try` block). -/
def save_and_generate_flowchart (mermaid_code output_format output_dir : String)
    (mmdc_path : String) (mmdc_exists : Bool) (temp_dir : String)
    (renderer : SubprocessResult) : RunResult × List Event :=
  if mmdc_exists then
    let mmd_file_path := path_join temp_dir "temp_flowchart.mmd"
    let output_path := path_join output_dir ("flowchart." ++ output_format)
    let trace := [Event.wroteFile mmd_file_path mermaid_code,
                  Event.ranProcess [mmdc_path, "-i", mmd_file_path, "-o", output_path,
                                    "-b", "transparent"]]
    if renderer.returncode = 0 then (RunResult.renderSuccess output_path, trace)
    else (RunResult.renderFailed renderer.stderr, trace)
  else (RunResult.toolNotInstalled, [])

/-- `generate_flowchart` (source lines 115-129) against the stubbed world:
resolve the API key (line 117, aborting on line 118-120 when falsy), call the
service and sanitize (line 124), and hand any truthy resulting code to
`save_and_generate_flowchart` (lines 125-126); a falsy code — `None` from a
failed call, or the empty string — skips the render step silently. -/
def generate_flowchart (env_api_key prompted_api_key : Option String)
    (user_requirement : String) (response : Option String)
    (output_format output_dir mmdc_path : String) (mmdc_exists : Bool)
    (temp_dir : String) (renderer : SubprocessResult) : RunResult × List Event :=
  match resolveApiKey env_api_key prompted_api_key with
  | none => (RunResult.credentialMissing, [])
  | some _ =>
    match generate_mermaid_code user_requirement response with
    | (none, evs) => (RunResult.inferenceFailed, evs)
    | (some code, evs) =>
      if code = "" then (RunResult.emptyCodeSkipped, evs)
      else
        let r := save_and_generate_flowchart code output_format output_dir
                   mmdc_path mmdc_exists temp_dir renderer
        (r.1, evs ++ r.2)

/-- Paths of the file-write effects of a trace, in order. -/
def writtenPaths : List Event → List String
  | [] => []
  | Event.wroteFile p _ :: t => p :: writtenPaths t
  | _ :: t => writtenPaths t

/-- Number of file-removal effects in a trace. -/
def countRemovals : List Event → Nat
  | [] => 0
  | Event.removedFile _ :: t => countRemovals t + 1
  | _ :: t => countRemovals t

theorem isPrefixOf_exists {l₁ l₂ : List Char} (h : l₁.isPrefixOf l₂ = true) :
    ∃ t, l₂ = l₁ ++ t := by
  induction l₁ generalizing l₂ with
  | nil => exact ⟨l₂, rfl⟩
  | cons a as ih =>
    cases l₂ with
    | nil => simp [List.isPrefixOf] at h
    | cons b bs =>
      simp only [List.isPrefixOf, Bool.and_eq_true, beq_iff_eq] at h
      obtain ⟨hab, h2⟩ := h
      subst hab
      obtain ⟨t, ht⟩ := ih h2
      exact ⟨t, by rw [ht]; rfl⟩

theorem isPrefixOf_self_append (l t : List Char) : l.isPrefixOf (l ++ t) = true := by
  induction l with
  | nil => simp [List.isPrefixOf]
  | cons a as ih => simp [List.isPrefixOf, ih]

theorem go_head_bq (p : List Char) (fuel : Nat) (s t : List Char)
    (h : removeAllGo bq p fuel s = bq :: t) : ∃ u, s = bq :: u := by
  cases s with
  | nil => cases fuel <;> simp [removeAllGo] at h
  | cons c rest =>
    cases fuel with
    | zero =>
      simp only [removeAllGo] at h
      injection h with h1 _
      exact ⟨rest, by rw [h1]⟩
    | succ fuel =>
      simp only [removeAllGo] at h
      split at h
      next hp =>
        obtain ⟨t', ht'⟩ := isPrefixOf_exists hp
        exact ⟨p ++ t', by simpa using ht'⟩
      next =>
        injection h with h1 _
        exact ⟨rest, by rw [h1]⟩

theorem go_head2_bq (p : List Char) (fuel : Nat) (s t : List Char)
    (h : removeAllGo bq (bq :: p) fuel s = bq :: bq :: t) : ∃ u, s = bq :: bq :: u := by
  cases s with
  | nil => cases fuel <;> simp [removeAllGo] at h
  | cons c rest =>
    cases fuel with
    | zero =>
      simp only [removeAllGo] at h
      injection h with h1 h2
      exact ⟨t, by rw [h1, h2]⟩
    | succ fuel =>
      simp only [removeAllGo] at h
      split at h
      next hp =>
        obtain ⟨t', ht'⟩ := isPrefixOf_exists hp
        exact ⟨p ++ t', by simpa using ht'⟩
      next =>
        injection h with h1 h2
        obtain ⟨u, hu⟩ := go_head_bq (bq :: p) fuel rest t h2
        exact ⟨u, by rw [h1, hu]⟩

theorem go_noTriple (fuel : Nat) : ∀ s : List Char, s.length ≤ fuel →
    ¬ ([bq, bq, bq] <:+: removeAllGo bq [bq, bq] fuel s) := by
  induction fuel with
  | zero =>
    intro s hs
    have : s = [] := List.length_eq_zero.mp (Nat.le_zero.mp hs)
    subst this
    rintro ⟨u, v, huv⟩
    simp [removeAllGo] at huv
  | succ fuel ih =>
    intro s hs
    cases s with
    | nil =>
      rintro ⟨u, v, huv⟩
      simp [removeAllGo] at huv
    | cons c rest =>
      simp only [removeAllGo]
      split
      next =>
        exact ih (rest.drop 2) (by simp at hs ⊢; omega)
      next hp =>
        intro hcontra
        rcases List.infix_cons_iff.mp hcontra with hpre | hinf
        · obtain ⟨t', ht'⟩ := hpre
          have hc : bq = c ∧ bq :: bq :: t' = removeAllGo bq [bq, bq] fuel rest := by
            simpa using ht'
          obtain ⟨u, hu⟩ := go_head2_bq [bq] fuel rest t' hc.2.symm
          apply hp
          rw [← hc.1, hu]
          exact isPrefixOf_self_append [bq, bq, bq] u
        · exact ih rest (Nat.le_of_succ_le_succ hs) hinf

theorem go_no_occ (c0 : Char) (p : List Char) (fuel : Nat) :
    ∀ s : List Char, ¬ ((c0 :: p) <:+: s) → removeAllGo c0 p fuel s = s := by
  induction fuel with
  | zero => intro s _; cases s <;> simp [removeAllGo]
  | succ fuel ih =>
    intro s hno
    cases s with
    | nil => simp [removeAllGo]
    | cons c rest =>
      simp only [removeAllGo]
      split
      next hp =>
        exfalso
        obtain ⟨t', ht'⟩ := isPrefixOf_exists hp
        exact hno ⟨[], t', by rw [ht']; rfl⟩
      next =>
        have : ¬ ((c0 :: p) <:+: rest) := by
          intro ⟨u, v, huv⟩
          exact hno ⟨c :: u, v, by rw [← huv]; rfl⟩
        rw [ih rest this]

theorem removeAll_noTriple (s : List Char) :
    ¬ ([bq, bq, bq] <:+: removeAll bq [bq, bq] s) :=
  go_noTriple s.length s le_rfl

theorem removeAll_no_occ {c0 : Char} {p s : List Char} (h : ¬ ((c0 :: p) <:+: s)) :
    removeAll c0 p s = s :=
  go_no_occ c0 p s.length s h

theorem dropWhile_head_false {p : Char → Bool} :
    ∀ {l : List Char} {c : Char} {t : List Char}, List.dropWhile p l = c :: t → p c = false := by
  intro l
  induction l with
  | nil => intro c t h; simp at h
  | cons a l' ih =>
    intro c t h
    rw [List.dropWhile_cons] at h
    split at h
    · exact ih h
    · injection h with h1 _
      subst h1
      simp_all

theorem dropWhile_dropWhile_same (p : Char → Bool) (l : List Char) :
    List.dropWhile p (List.dropWhile p l) = List.dropWhile p l := by
  cases h : List.dropWhile p l with
  | nil => rfl
  | cons c t => rw [List.dropWhile_cons, dropWhile_head_false h]; simp

theorem stripL_decomp (s : List Char) :
    List.dropWhile pyIsSpace s =
      stripL s ++ (List.takeWhile pyIsSpace (List.dropWhile pyIsSpace s).reverse).reverse := by
  unfold stripL
  conv_lhs => rw [← List.reverse_reverse (List.dropWhile pyIsSpace s)]
  conv_lhs => rw [← List.takeWhile_append_dropWhile (p := pyIsSpace)
    (l := (List.dropWhile pyIsSpace s).reverse)]
  rw [List.reverse_append]

theorem stripL_dropWhile_eq (s : List Char) :
    List.dropWhile pyIsSpace (stripL s) = stripL s := by
  cases hB : stripL s with
  | nil => rfl
  | cons c t =>
    have hA := stripL_decomp s
    rw [hB] at hA
    have : pyIsSpace c = false := dropWhile_head_false (t := t ++ _) (by rw [hA]; rfl)
    rw [List.dropWhile_cons, this]
    simp

theorem stripL_idem (s : List Char) : stripL (stripL s) = stripL s := by
  have h2 : (stripL s).reverse.dropWhile pyIsSpace = (stripL s).reverse := by
    show (((List.dropWhile pyIsSpace s).reverse.dropWhile pyIsSpace).reverse.reverse.dropWhile
        pyIsSpace) = ((List.dropWhile pyIsSpace s).reverse.dropWhile pyIsSpace).reverse.reverse
    rw [List.reverse_reverse, dropWhile_dropWhile_same]
  show ((List.dropWhile pyIsSpace (stripL s)).reverse.dropWhile pyIsSpace).reverse = stripL s
  rw [stripL_dropWhile_eq s, h2, List.reverse_reverse]

theorem stripL_isInf (s : List Char) : stripL s <:+: s := by
  refine ⟨(List.takeWhile pyIsSpace s),
    (List.takeWhile pyIsSpace (List.dropWhile pyIsSpace s).reverse).reverse, ?_⟩
  rw [List.append_assoc, ← stripL_decomp s]
  exact List.takeWhile_append_dropWhile pyIsSpace s

theorem triple_of_fenceM {y : List Char} (h : fenceM <:+: y) : [bq, bq, bq] <:+: y := by
  obtain ⟨u, v, huv⟩ := h
  exact ⟨u, "mermaid".data ++ v, by rw [← huv]; simp [fenceM, fenceMTail]⟩

theorem sanitizeL_noTriple (s : List Char) : ¬ ([bq, bq, bq] <:+: sanitizeL s) := by
  intro h
  have h' : [bq, bq, bq] <:+:
      removeAll bq [bq, bq] (removeAll bq fenceMTail (stripL s)) :=
    List.IsInfix.trans h (stripL_isInf _)
  exact removeAll_noTriple _ h'

theorem sanitizeL_idem (s : List Char) : sanitizeL (sanitizeL s) = sanitizeL s := by
  have hnt := sanitizeL_noTriple s
  set y := sanitizeL s with hy
  have hstrip : stripL y = y :=
    stripL_idem (removeAll bq [bq, bq] (removeAll bq fenceMTail (stripL s)))
  have hM : removeAll bq fenceMTail (stripL y) = stripL y := by
    rw [hstrip]
    exact removeAll_no_occ (fun h => hnt (triple_of_fenceM h))
  have h3 : removeAll bq [bq, bq] (stripL y) = stripL y := by
    rw [hstrip]
    exact removeAll_no_occ hnt
  show stripL (removeAll bq [bq, bq] (removeAll bq fenceMTail (stripL y))) = y
  rw [hM, h3, hstrip, hstrip]

theorem path_join_data_suffix (a b : String) : b.data <:+ (path_join a b).data := by
  unfold path_join
  split
  · exact ⟨[], rfl⟩
  · split
    · exact ⟨a.data, (String.data_append a b).symm⟩
    · exact ⟨(a ++ "/").data, (String.data_append (a ++ "/") b).symm⟩

theorem countRemovals_append (a b : List Event) :
    countRemovals (a ++ b) = countRemovals a + countRemovals b := by
  induction a with
  | nil => simp [countRemovals]
  | cons e t ih =>
    cases e <;> simp [countRemovals, ih]
    omega

theorem save_no_removal (code fmt dir mp : String) (ex : Bool) (td : String)
    (sp : SubprocessResult) :
    countRemovals (save_and_generate_flowchart code fmt dir mp ex td sp).2 = 0 := by
  unfold save_and_generate_flowchart
  cases ex
  · rfl
  · by_cases h0 : sp.returncode = 0 <;> simp [h0, countRemovals]

/-- C1 counterexample: on the input `"a⋯ b"` holding a plain fence marker in
the middle of the text — so with no leading/trailing fence-marker pair and no
surrounding whitespace — the claim says `sanitize` changes nothing
(`sanitizeSpec`, the claim's reading, returns the input unchanged), but the
code's `sanitize` deletes the interior marker as well, because the source
uses `str.replace`, which removes every occurrence. -/
theorem sanitize_midfence_counterexample :
    sanitize "a``` b" = "a b" ∧ sanitizeSpec "a``` b" = "a``` b" ∧
      sanitize "a``` b" ≠ sanitizeSpec "a``` b" := by decide

/-- C1 (amended): `sanitize` removes every occurrence of the fence markers —
first all of the tagged marker, then all of the plain one — anywhere in the
text, not only a leading/trailing pair, and trims surrounding whitespace; in
particular the fenced example collapses to its payload, and on input free of
fence markers `sanitize` only trims whitespace. -/
theorem sanitize_removes_all_fences :
    sanitize "```mermaid\nX\n```" = "X" ∧
      ∀ x : String, ¬ (fence <:+: x.data) → sanitize x = pyStrip x := by
  constructor
  · decide
  · intro x hx
    unfold sanitize pyStrip
    have h1 : ¬ (fence <:+: stripL x.data) := fun h => hx (h.trans (stripL_isInf _))
    have hM : removeAll bq fenceMTail (stripL x.data) = stripL x.data :=
      removeAll_no_occ (fun h => h1 (triple_of_fenceM h))
    have h3 : removeAll bq [bq, bq] (stripL x.data) = stripL x.data :=
      removeAll_no_occ h1
    show String.mk (stripL (removeAll bq [bq, bq]
      (removeAll bq fenceMTail (stripL x.data)))) = String.mk (stripL x.data)
    rw [hM, h3, stripL_idem]

/-- C1 witness: the amended theorem applied to a fence-free input. -/
theorem sanitize_removes_all_fences_witness :
    sanitize " flowchart TD " = pyStrip " flowchart TD " :=
  sanitize_removes_all_fences.2 " flowchart TD " (by decide)

/-- C2: `sanitize` is idempotent — its output contains no fence marker (once
all occurrences of the three-backtick marker are removed, none can reappear,
since the scan never glues two backticks of a kept run onto a removed
occurrence) and is already whitespace-trimmed, so a second pass is the
identity. -/
theorem sanitize_idempotent (x : String) : sanitize (sanitize x) = sanitize x :=
  congrArg String.mk (sanitizeL_idem x.data)

/-- C3 counterexample: two distinct runs — different diagram text, output
format and output directory — both write their transient file at the very
same path, because source line 83 always joins the temp directory with the
constant name `temp_flowchart.mmd`; the path is not uniquely named per run. -/
theorem transient_path_shared_counterexample :
    writtenPaths (save_and_generate_flowchart "A" "png" "/o1" "mmdc" true "/tmp"
        ⟨0, "", ""⟩).2 = ["/tmp/temp_flowchart.mmd"] ∧
      writtenPaths (save_and_generate_flowchart "B" "svg" "/o2" "mmdc" true "/tmp"
        ⟨0, "", ""⟩).2 = ["/tmp/temp_flowchart.mmd"] := by decide

/-- C3 (amended): render writes the diagram text to one fixed transient path,
`temp_dir/temp_flowchart.mmd`; every run with the same temp directory reuses
that same path, whatever its diagram text, format, directory or renderer
result (the spec itself flags this shared path as a cross-run hazard in §5). -/
theorem transient_path_fixed (code fmt dir mp td : String) (sp : SubprocessResult) :
    writtenPaths (save_and_generate_flowchart code fmt dir mp true td sp).2 =
      [path_join td "temp_flowchart.mmd"] := by
  unfold save_and_generate_flowchart
  by_cases h0 : sp.returncode = 0 <;> simp [h0, writtenPaths]

/-- C4: with the renderer present and exiting 0, the run reports success with
the output path `output_dir/flowchart.<format>` for the offered formats, and
that path ends in `flowchart.<format>`. -/
theorem render_success_output_path (code fmt dir mp td : String) (sp : SubprocessResult)
    (_hfmt : fmt = "png" ∨ fmt = "svg" ∨ fmt = "pdf") (h0 : sp.returncode = 0) :
    (save_and_generate_flowchart code fmt dir mp true td sp).1 =
        RunResult.renderSuccess (path_join dir ("flowchart." ++ fmt)) ∧
      ("flowchart." ++ fmt).data <:+ (path_join dir ("flowchart." ++ fmt)).data := by
  refine ⟨?_, path_join_data_suffix dir _⟩
  simp [save_and_generate_flowchart, h0]

/-- C4 witness: a renderer stub exiting 0 on format `svg`. -/
theorem render_success_output_path_witness :
    (save_and_generate_flowchart "flowchart TD" "svg" "/out" "mmdc" true "/tmp"
        ⟨0, "", ""⟩).1 =
        RunResult.renderSuccess (path_join "/out" ("flowchart." ++ "svg")) ∧
      ("flowchart." ++ "svg").data <:+ (path_join "/out" ("flowchart." ++ "svg")).data :=
  render_success_output_path "flowchart TD" "svg" "/out" "mmdc" "/tmp" ⟨0, "", ""⟩
    (Or.inr (Or.inl rfl)) rfl

/-- C5: with the renderer present, the run reports failure exactly when the
subprocess exit code is non-zero, and the diagnostic text of a failure is
exactly the captured stderr of the subprocess. -/
theorem render_failure_iff_nonzero (code fmt dir mp td : String) (sp : SubprocessResult) :
    (sp.returncode ≠ 0 →
        (save_and_generate_flowchart code fmt dir mp true td sp).1 =
          RunResult.renderFailed sp.stderr) ∧
      ∀ d, (save_and_generate_flowchart code fmt dir mp true td sp).1 =
          RunResult.renderFailed d → sp.returncode ≠ 0 ∧ d = sp.stderr := by
  constructor
  · intro hne
    simp [save_and_generate_flowchart, hne]
  · intro d hd
    by_cases h0 : sp.returncode = 0
    · simp [save_and_generate_flowchart, h0] at hd
    · simp [save_and_generate_flowchart, h0] at hd
      exact ⟨h0, hd.symm⟩

/-- C5 witness: a renderer stub exiting 1 with stderr `boom` yields a failure
outcome whose diagnostic text is `boom`. -/
theorem render_failure_iff_nonzero_witness :
    (save_and_generate_flowchart "flowchart TD" "png" "/out" "mmdc" true "/tmp"
        ⟨1, "", "boom"⟩).1 = RunResult.renderFailed "boom" :=
  (render_failure_iff_nonzero "flowchart TD" "png" "/out" "mmdc" "/tmp" ⟨1, "", "boom"⟩).1
    (by decide)

/-- C6: when the resolved renderer executable does not exist, the run stops
with the tool-not-installed condition before anything happens: the effect
trace is empty — no transient-file write, no subprocess, hence no output
file (the source returns on line 79 before entering the `try` block). -/
theorem tool_missing_short_circuit (code fmt dir mp td : String) (sp : SubprocessResult) :
    save_and_generate_flowchart code fmt dir mp false td sp =
      (RunResult.toolNotInstalled, []) := rfl

/-- C7 counterexample: a complete successful run and a complete failed run,
each with the transient file written, contain no file-removal effect at all —
the source never calls any deletion routine, so the transient file is not
cleaned up, contrary to the claimed best-effort removal on every run. -/
theorem no_cleanup_counterexample :
    countRemovals (generate_flowchart (some "k") none "payment flow"
        (some "flowchart TD") "png" "/out" "mmdc" true "/tmp" ⟨0, "", ""⟩).2 = 0 ∧
      (generate_flowchart (some "k") none "payment flow" (some "flowchart TD") "png" "/out"
        "mmdc" true "/tmp" ⟨0, "", ""⟩).1 = RunResult.renderSuccess "/out/flowchart.png" ∧
      countRemovals (generate_flowchart (some "k") none "payment flow"
        (some "flowchart TD") "png" "/out" "mmdc" true "/tmp" ⟨1, "", "boom"⟩).2 = 0 ∧
      (generate_flowchart (some "k") none "payment flow" (some "flowchart TD") "png" "/out"
        "mmdc" true "/tmp" ⟨1, "", "boom"⟩).1 = RunResult.renderFailed "boom" := by decide

/-- C7 (amended): the orchestration never attempts to remove the transient
input file — no run, whatever its inputs, outcome or stubbed world, performs
a single file-removal effect; the transient file is simply left behind. -/
theorem no_removal_ever (ek pk : Option String) (req : String) (resp : Option String)
    (fmt dir mp : String) (ex : Bool) (td : String) (sp : SubprocessResult) :
    countRemovals (generate_flowchart ek pk req resp fmt dir mp ex td sp).2 = 0 := by
  unfold generate_flowchart
  cases resolveApiKey ek pk with
  | none => rfl
  | some k =>
    cases resp with
    | none => rfl
    | some raw =>
      by_cases hc : sanitize raw = ""
      · simp [generate_mermaid_code, hc, countRemovals]
      · simp [generate_mermaid_code, hc, countRemovals_append, save_no_removal, countRemovals]

/-- C8: with the environment variable unset and the interactive prompt
yielding nothing (cancelled, or an empty entry — both falsy in the source's
line 118 test), the run aborts at once with the credential-missing condition:
the effect trace is empty, so no inference call and no render happen. -/
theorem credential_missing_aborts (pk : Option String) (req : String) (resp : Option String)
    (fmt dir mp : String) (ex : Bool) (td : String) (sp : SubprocessResult)
    (hpk : pk = none ∨ pk = some "") :
    generate_flowchart none pk req resp fmt dir mp ex td sp =
      (RunResult.credentialMissing, []) := by
  rcases hpk with h | h <;> subst h <;> rfl

/-- C8 witness: env unset, dialog cancelled. -/
theorem credential_missing_aborts_witness :
    generate_flowchart none none "login flow" (some "flowchart TD") "png" "/out" "mmdc" true
      "/tmp" ⟨0, "", ""⟩ = (RunResult.credentialMissing, []) :=
  credential_missing_aborts none "login flow" (some "flowchart TD") "png" "/out" "mmdc" true
    "/tmp" ⟨0, "", ""⟩ (Or.inl rfl)

/-- C9: for every non-empty description, the prompt contains the description
verbatim as a substring, and decomposes as fixed-head ++ description ++
fixed-mid ++ `ruleBlock` ++ fixed-rest, where `ruleBlock` is the rule-section
header immediately followed by the first rule, the fixed starting-token
requirement (start with `flowchart TD`); `buildPrompt` is a plain function of
the description, hence deterministic. -/
theorem buildPrompt_contains_description (d : String) (_hd : d ≠ "") :
    d.data <:+: (buildPrompt d).data ∧
      (buildPrompt d).data =
        promptHead.data ++ d.data ++
          (promptMid.data ++ (ruleBlock.data ++ promptRest.data)) := by
  constructor
  · exact ⟨promptHead.data, (promptMid ++ (ruleBlock ++ promptRest)).data, by
      simp [buildPrompt]⟩
  · simp [buildPrompt]

/-- C9 witness: the prompt built for the description `user login flow`. -/
theorem buildPrompt_contains_description_witness :
    ("user login flow" : String).data <:+: (buildPrompt "user login flow").data ∧
      (buildPrompt "user login flow").data =
        promptHead.data ++ ("user login flow" : String).data ++
          (promptMid.data ++ (ruleBlock.data ++ promptRest.data)) :=
  buildPrompt_contains_description "user login flow" (by decide)

/-- C10: when the key resolves and the inference call succeeds but its
response sanitizes to the empty string, the run is skipped silently: the
trace holds only the inference call — no transient-file write, no subprocess
— and the outcome is neither a render success nor a render failure (source
line 125's truthiness test filters the empty string). -/
theorem empty_sanitized_skips_render (ek pk : Option String) (req raw : String)
    (fmt dir mp : String) (ex : Bool) (td : String) (sp : SubprocessResult)
    (hkey : resolveApiKey ek pk ≠ none) (hraw : sanitize raw = "") :
    generate_flowchart ek pk req (some raw) fmt dir mp ex td sp =
      (RunResult.emptyCodeSkipped, [Event.inferenceCall systemMessage (buildPrompt req)]) := by
  unfold generate_flowchart
  cases hk : resolveApiKey ek pk with
  | none => exact absurd hk hkey
  | some k => simp [generate_mermaid_code, hraw]

/-- C10 witness: a response consisting only of fence markers sanitizes to the
empty string and the run produces only the inference-call effect. -/
theorem empty_sanitized_skips_render_witness :
    generate_flowchart (some "key") none "login" (some "```mermaid\n```") "png" "/out" "mmdc"
      true "/tmp" ⟨0, "", ""⟩ =
      (RunResult.emptyCodeSkipped, [Event.inferenceCall systemMessage (buildPrompt "login")]) :=
  empty_sanitized_skips_render (some "key") none "login" "```mermaid\n```" "png" "/out" "mmdc"
    true "/tmp" ⟨0, "", ""⟩ (by decide) (by decide)

end FlowchartGen
